import Mathlib

/-!
Verification development for the resilient bulk data-acquisition engine of the
A-share-replay repository.

The embedding covers:
* `Downloader` — `src/downloader.py`: `StockDataDownloader.fetch_single_stock`
  (paginated fetch with server failover), `_download_batch` (one round over a
  set of targets) and `download_all_stocks` (retry rounds plus the skip-retry
  heuristic and the final report).
* `PreClose` — `src/download_pre_close.py`: `get_stock_pre_close_single`
  (point lookup) and the retry-round concurrency schedule of
  `download_pre_close_parallel`.

Network effects are modelled by explicit oracles: each server behaviour is a
value describing what the remote side answers (connection refused, raised
exception, or a session that replies with a list of pages in request order,
`none` standing for the Python `None` transient sentinel, distinct from an
empty page `some []`).  File-system effects are modelled by an explicit list of
codes whose output artifact exists; a write is reported in the result.  Thread
pools are modelled sequentially in submission order: the source's
`as_completed` order only permutes the failure list, which no counted claim
depends on (the one order-sensitive spot, `failed_list[0]`, is noted where it
is used).
-/

/-- `Option.all`-like helper: `p` holds of the content, vacuously of `none`. -/
def optAll {α : Type} (p : α → Bool) : Option α → Bool
  | none => true
  | some a => p a

namespace Downloader

/-- Spec-level outcome tag, recording which return site of
`fetch_single_stock` produced the result: the `文件已存在` / `成功下载` returns
are `success` (Python success flag `True`), the `当日无数据` return is
`noData`, and the final `尝试均失败` return is `failed` (both with flag
`False`). -/
inductive OutcomeKind where
  | success
  | noData
  | failed
  deriving DecidableEq, Repr

/-- Result of the pagination loop of `fetch_single_stock` (lines 121-140 of
`src/downloader.py`) on one connected server.
`sentinel` — the loop broke because `get_history_transaction_data` returned
`None` (`data is None`), `acc` being the records accumulated so far (they are
discarded by the caller, which moves to the next server);
`done` — the loop broke via an empty or partial page, `acc` the accumulator;
`ranOut` — the mock reply list was exhausted while the loop would request
another page, so the model cannot determine the behaviour. -/
inductive PageLoop (α : Type) where
  | sentinel (acc : List α)
  | done (acc : List α)
  | ranOut (acc : List α)
  deriving DecidableEq, Repr

/-- The `while True` pagination loop: request the page at the current offset;
`None` breaks with the sentinel; an empty page breaks without extending the
accumulator; otherwise the page is appended and the loop stops when the page
was shorter than `batch_size`.  `replies` lists the server's answers in request
order (offsets 0, B, 2B, …). -/
def fetchPages (B : Nat) : List (Option (List α)) → List α → PageLoop α
  | [], acc => .ranOut acc
  | r :: rest, acc =>
    match r with
    | none => .sentinel acc
    | some page =>
      if page.length = 0 then .done acc
      else if page.length < B then .done (acc ++ page)
      else fetchPages B rest (acc ++ page)

/-- Behaviour of one server towards one target in one attempt:
`connectFail ip` — `api.connect` returns falsy;
`raises msg` — an exception escapes the `try` block;
`session replies` — the connection succeeds and the pagination loop sees the
given replies in request order. -/
inductive ServerBehavior (α : Type) where
  | connectFail (ip : String)
  | raises (msg : String)
  | session (replies : List (Option (List α)))
  deriving DecidableEq, Repr

/-- The result of one `fetch_single_stock` call.  `code`, `ok`, `msg` mirror
the returned tuple `(stock_code, success, message)`; `outcome` tags the return
site (see `OutcomeKind`); `written` is the data written to the per-target
parquet file by this call, if any; `connects` counts the `api.connect` network
calls the attempt made. -/
structure FetchRes (α : Type) where
  code : String
  ok : Bool
  msg : String
  outcome : OutcomeKind
  written : Option (List α)
  connects : Nat
  deriving DecidableEq, Repr

/-- Message of the `当日无数据` (no data for the day) return. -/
def noDataMsg (market : String) : String := "当日无数据 (Exchange:" ++ market ++ ")"

/-- Message of the `成功下载` (download succeeded) return. -/
def successMsg (n : Nat) : String := "成功下载 " ++ toString n ++ " 条数据"

/-- Message of the final `尝试均失败` (all tries failed) return; `last_error`
is rendered as Python renders it, `None` when never set. -/
def allFailedMsg (lastError : Option String) : String :=
  "尝试均失败. 错误: " ++ lastError.getD "None"

/-- Message recorded when `api.connect` returns falsy. -/
def connectFailMsg (ip : String) : String := "无法连接服务器 " ++ ip

/-- Message recorded when the pagination loop receives the `None` sentinel. -/
def sentinelMsg : String := "获取数据返回None(可能是网络中断)"

/-- The `for server in self.TDX_SERVERS[:retry_count]` loop of
`fetch_single_stock` (lines 108-180): each server consumes one connect; a
falsy connect or an exception or a sentinel-aborted pagination records
`last_error` and moves on; a completed pagination either saves the data
(`成功下载`) or reports `当日无数据`; when the servers run out the attempt is
`尝试均失败` with the last recorded error.  `none` = the model could not
determine the pagination loop (mock replies exhausted). -/
def tryServers (code market : String) (B : Nat) :
    List (ServerBehavior α) → Option String → Nat → Option (FetchRes α)
  | [], lastError, conn =>
    some ⟨code, false, allFailedMsg lastError, .failed, none, conn⟩
  | b :: rest, _lastError, conn =>
    match b with
    | .connectFail ip => tryServers code market B rest (some (connectFailMsg ip)) (conn + 1)
    | .raises m => tryServers code market B rest (some m) (conn + 1)
    | .session replies =>
      match fetchPages B replies [] with
      | .sentinel _ => tryServers code market B rest (some sentinelMsg) (conn + 1)
      | .ranOut _ => none
      | .done acc =>
        if acc.isEmpty then
          some ⟨code, false, noDataMsg market, .noData, none, conn + 1⟩
        else
          some ⟨code, true, successMsg acc.length, .success, some acc, conn + 1⟩

/-- `StockDataDownloader.fetch_single_stock` (lines 92-180): if the per-target
file already exists the call short-circuits to success with zero network
calls and no write; otherwise up to `retry_count` servers are tried in order.
The source fixes `batch_size = 2000` (see `batch_size` below); the loop logic
is uniform in `B`, which the model keeps as a parameter. -/
def fetch_single_stock (code market : String) (fileExists : Bool)
    (servers : List (ServerBehavior α)) (retry_count B : Nat) : Option (FetchRes α) :=
  if fileExists then some ⟨code, true, "文件已存在，跳过", .success, none, 0⟩
  else tryServers code market B (servers.take retry_count) none 0

/-- The page size hard-coded in `fetch_single_stock`. -/
def batch_size : Nat := 2000

/-- One row of `stocks_df` together with its network behaviour: `behavior r`
gives, for retry round `r` (0 = the initial round), the list of server
behaviours this target's attempt would observe. -/
structure StockSpec (α : Type) where
  code : String
  market : String
  behavior : Nat → List (ServerBehavior α)

/-- `StockDataDownloader._download_batch` (lines 256-295): one fetch attempt
per target; a `True` result bumps the success counter, a `False` result is
appended to the failure list.  The thread pool is modelled in submission
order; `files` is the set of codes whose output artifact exists, updated by
successful writes.  Returns `(success_count, failed_list, files)`. -/
def download_batch (B retry_count : Nat) :
    List (StockSpec α) → Nat → List String →
    Option (Nat × List (String × String) × List String)
  | [], _, files => some (0, [], files)
  | s :: rest, round, files =>
    match fetch_single_stock s.code s.market (files.contains s.code)
        (s.behavior round) retry_count B with
    | none => none
    | some r =>
      let files' := if r.written.isSome then s.code :: files else files
      match download_batch B retry_count rest round files' with
      | none => none
      | some (sc, fl, files₂) =>
        some (if r.ok then sc + 1 else sc,
              if r.ok then fl else (s.code, r.msg) :: fl,
              files₂)

/-- The record of one executed round, for stating round-level properties:
the concurrency handed to the pool, the codes submitted, and the round's
success count and failure list. -/
structure RoundResult where
  workers : Nat
  inputCodes : List String
  successCount : Nat
  failedList : List (String × String)
  deriving DecidableEq, Repr

/-- The data of `_generate_report` (lines 297-314). -/
structure Report where
  total : Nat
  successCount : Nat
  failedList : List (String × String)
  deriving DecidableEq, Repr

/-- Marker string of the no-data condition, tested by substring containment
(Python `"当日无数据" in failed_list[0][1]`). -/
def noDataMarker : String := "当日无数据"

/-- Substring containment on character lists. -/
def listHasSub (needle : List Char) : List Char → Bool
  | [] => needle.isEmpty
  | c :: rest => needle.isPrefixOf (c :: rest) || listHasSub needle rest

/-- `needle in hay` on strings. -/
def strContainsSub (hay needle : String) : Bool :=
  listHasSub needle.toList hay.toList

/-- The skip-retry heuristic of `download_all_stocks` (line 234):
`len(failed_list) > len(self.stocks_df) * 0.9 and "当日无数据" in
failed_list[0][1]`.  The float comparison `f > 0.9 * t` is modelled by the
exact `10 * f > 9 * t`; the two agree on every input this development
evaluates (both sides are small integers).  `and` short-circuits, so the
head access is only taken when the list is nonempty. -/
def skipRetryCond (total : Nat) (failed : List (String × String)) : Bool :=
  decide (10 * failed.length > 9 * total) &&
    (match failed.head? with
     | some p => strContainsSub p.2 noDataMarker
     | none => false)

/-- The `retry_round = 1; while failed_list and retry_round <= max_retry`
loop (lines 237-251).  `fuel` is the number of retry-round indices still
allowed, `round` the absolute round number (used to index behaviours).  Each
iteration re-filters the ORIGINAL universe by the failed codes
(`self.stocks_df[...isin(failed_codes)]`), runs a batch, adds the round's
successes and replaces the failure list.  Returns
`(extra_success, final_failed, trace, files)`. -/
def retryLoop (stocks : List (StockSpec α)) (B retry_count W : Nat) :
    Nat → Nat → List (String × String) → List String →
    Option (Nat × List (String × String) × List RoundResult × List String)
  | 0, _, failed, files => some (0, failed, [], files)
  | fuel + 1, round, failed, files =>
    if failed.isEmpty then some (0, failed, [], files)
    else
      let failedCodes := failed.map Prod.fst
      let retryStocks := stocks.filter fun s => failedCodes.contains s.code
      match download_batch B retry_count retryStocks round files with
      | none => none
      | some (sc, fl, files₂) =>
        match retryLoop stocks B retry_count W fuel (round + 1) fl files₂ with
        | none => none
        | some (ex, finalFailed, tr, files₃) =>
          some (sc + ex, finalFailed,
                ⟨W, retryStocks.map (fun s => s.code), sc, fl⟩ :: tr, files₃)

/-- `StockDataDownloader.download_all_stocks` (lines 193-254): the initial
round over the full universe, the skip-retry heuristic, up to `max_retry`
retry rounds over the still-failing codes, and the final report.  Connectivity
probing only reorders/filters the physical server list and is absorbed into
the per-round behaviours.  The source passes the SAME `max_workers` to every
round.  Also returns the trace of executed rounds. -/
def download_all_stocks (stocks : List (StockSpec α)) (B retry_count W max_retry : Nat)
    (files : List String) : Option (Report × List RoundResult) :=
  match download_batch B retry_count stocks 0 files with
  | none => none
  | some (sc₀, fl₀, files₀) =>
    let round0 : RoundResult := ⟨W, stocks.map (fun s => s.code), sc₀, fl₀⟩
    if skipRetryCond stocks.length fl₀ then
      some (⟨stocks.length, sc₀, fl₀⟩, [round0])
    else
      match retryLoop stocks B retry_count W max_retry 1 fl₀ files₀ with
      | none => none
      | some (ex, finalFailed, tr, _) =>
        some (⟨stocks.length, sc₀ + ex, finalFailed⟩, round0 :: tr)

end Downloader

namespace PreClose

/-- A JSON scalar as relevant to the `f60` field: a string or a number. -/
inductive JVal where
  | jstr (s : String)
  | jnum (n : Int)
  deriving DecidableEq, Repr

/-- Python truthiness of a `JVal` (empty string and zero are falsy). -/
def truthy : JVal → Bool
  | .jstr s => !s.isEmpty
  | .jnum n => decide (n ≠ 0)

/-- What the HTTP oracle answers one request:
`raised` — an exception escapes the `try` block (network error, JSON error);
`resp status body` — a response with the given status code; `body = none`
models a missing/falsy `data` field, `body = some f` a truthy `data` dict
whose `f60` entry is `f` (`none` = missing or falsy). -/
inductive HttpResp where
  | raised
  | resp (status : Nat) (body : Option (Option JVal))
  deriving DecidableEq, Repr

/-- The response handling of `get_stock_pre_close_single`
(`src/download_pre_close.py` lines 43-66): non-200 status → `None`; the
`data`/`f60` truthiness guard; the `'-'` placeholder filtered as `None`;
otherwise the `{'stock_code': …, 'pre_close': …}` dict. -/
def parse_pre_close (resp : HttpResp) (stock_code : String) : Option (String × JVal) :=
  match resp with
  | .raised => none
  | .resp status body =>
    if status ≠ 200 then none
    else
      match body with
      | some (some v) =>
        if truthy v then
          if v = .jstr "-" then none else some (stock_code, v)
        else none
      | _ => none

/-- `get_stock_pre_close_single` (lines 13-66): derive the `secid` addressing
namespace from the code's leading digit (lines 24-31), issue exactly one
request, and parse.  Returns the list of `secid`s requested (always a
singleton: there is no internal retry loop) paired with the optional result. -/
def get_stock_pre_close_single (oracle : String → HttpResp) (stock_code : String) :
    List String × Option (String × JVal) :=
  let secid :=
    if stock_code.startsWith "6" then "1." ++ stock_code
    else if stock_code.startsWith "0" || stock_code.startsWith "3" then "0." ++ stock_code
    else if stock_code.startsWith "8" || stock_code.startsWith "4" then "0." ++ stock_code
    else "0." ++ stock_code
  ([secid], parse_pre_close (oracle secid) stock_code)

/-- `retry_workers = max(5, int(max_workers * 0.5))`
(`download_pre_close_parallel`, line 124); `int` truncates, so for a
nonnegative integer `max_workers` this is `max 5 (max_workers / 2)`. -/
def retry_workers (max_workers : Nat) : Nat := max 5 (max_workers / 2)

/-- The concurrency handed to the pool in round `r` of
`download_pre_close_parallel`: the configured `max_workers` in the initial
round (line 114) and `retry_workers max_workers` in every retry round
(lines 118-127 recompute it from the original `max_workers` each time). -/
def roundWorkers (max_workers : Nat) : Nat → Nat
  | 0 => max_workers
  | _ + 1 => retry_workers max_workers

end PreClose

namespace Downloader

/-- The shape of a mock page sequence in the sense of the spec's pagination
property: every page before the last has exactly `B` records and the last has
fewer than `B` (possibly zero).  The sequence is nonempty — the loop always
issues at least one request. -/
def wellPaged (B : Nat) : List (List α) → Bool
  | [] => false
  | p :: rest =>
    match rest with
    | [] => decide (p.length < B)
    | _ :: _ => (p.length == B) && wellPaged B rest

/-- A server behaviour whose pagination attempt ends in the transient `None`
sentinel (possibly after accumulating full pages). -/
def SentinelSession (B : Nat) (b : ServerBehavior α) : Prop :=
  ∃ replies acc, b = ServerBehavior.session replies ∧
    fetchPages B replies [] = PageLoop.sentinel acc

/-- The chaining property of a round trace: every round's submitted codes are
drawn from the failure list of the round before it. -/
def TraceChained : List RoundResult → Prop
  | [] => True
  | a :: rest =>
    match rest with
    | [] => True
    | b :: _ => (∀ c ∈ b.inputCodes, c ∈ a.failedList.map Prod.fst) ∧ TraceChained rest

/-- Auxiliary chaining predicate: the first round of the trace draws its codes
from `failed`, and each later round from its predecessor's failure list. -/
def ChainFrom (failed : List (String × String)) : List RoundResult → Prop
  | [] => True
  | rr :: rest => (∀ c ∈ rr.inputCodes, c ∈ failed.map Prod.fst) ∧ ChainFrom rr.failedList rest

/-- Scenario A of the spec (batch size 2): `600000` delivers pages of
lengths 2, 2, 1; `000002` hits the transient sentinel on server 1 and an
empty page on server 2; `300003` delivers an empty page immediately.
Behaviour is the same in every round. -/
def scenA : List (StockSpec Nat) := [
  ⟨"600000", "1", fun _ => [.session [some [1, 2], some [3, 4], some [5]]]⟩,
  ⟨"000002", "0", fun _ => [.session [none], .session [some []]]⟩,
  ⟨"300003", "0", fun _ => [.session [some []]]⟩]

/-- Scenario C universe: 10 targets, of which `c0` succeeds with one record
and the other nine legitimately have no data, in every round. -/
def env10 : List (StockSpec Nat) :=
  (List.range 10).map fun i =>
    if i = 0 then ⟨"c0", "0", fun _ => [.session [some [1]]]⟩
    else ⟨"c" ++ toString i, "0", fun _ => [.session [some []]]⟩

/-- A universe of two targets that both report `当日无数据` in round 0. -/
def env2NoData : List (StockSpec Nat) := [
  ⟨"000001", "0", fun _ => [.session [some []]]⟩,
  ⟨"000002", "0", fun _ => [.session [some []]]⟩]

/-- Scenario D target: its single server refuses connections in rounds 0-2
and delivers one record in round 3 and later. -/
def envD3 : List (StockSpec Nat) := [
  ⟨"000001", "0", fun r => if r < 3 then [.connectFail "1.2.3.4"] else [.session [some [7]]]⟩]

/-- A target that keeps failing through round 3 and would only succeed in
round 4. -/
def envD4 : List (StockSpec Nat) := [
  ⟨"000001", "0", fun r => if r < 4 then [.connectFail "1.2.3.4"] else [.session [some [7]]]⟩]

/-- A target whose connection always fails (reason never mentions no-data). -/
def envConnFail : List (StockSpec Nat) := [
  ⟨"000001", "0", fun _ => [.connectFail "1.2.3.4"]⟩]

end Downloader

namespace PreClose

/-- `_download_batch_internal` (`src/download_pre_close.py` lines 69-94): one
`get_stock_pre_close_single` attempt per code; a truthy result is appended to
`results`, otherwise the code is appended to `failed_codes`.  The thread pool
is modelled in submission order.  Returns `(results, failed_codes)`. -/
def download_batch_internal (oracle : String → HttpResp) :
    List String → List (String × JVal) × List String
  | [] => ([], [])
  | c :: rest =>
    let out := download_batch_internal oracle rest
    match (get_stock_pre_close_single oracle c).2 with
    | some r => (r :: out.1, out.2)
    | none => (out.1, c :: out.2)

/-- The record of one executed round of `download_pre_close_parallel`: the
worker count handed to the pool, the codes submitted, and the codes that
failed in this round. -/
structure PreRound where
  workers : Nat
  inputCodes : List String
  failedCodes : List String
  deriving DecidableEq, Repr

/-- The `for i in range(max_retries)` retry loop of
`download_pre_close_parallel` (lines 117-129): it stops early once nothing
failed; each retry round resubmits exactly the previous round's `failed` list
with `retry_workers max_workers` workers and replaces `failed` with the new
failures.  `oracle` is round-indexed; `round` is the absolute round number.
Returns `(extra_results, final_failed, trace)`. -/
def preCloseRetryLoop (oracle : Nat → String → HttpResp) (max_workers : Nat) :
    Nat → Nat → List String → List (String × JVal) × List String × List PreRound
  | 0, _, failed => ([], failed, [])
  | fuel + 1, round, failed =>
    if failed.isEmpty then ([], failed, [])
    else
      let out := download_batch_internal (oracle round) failed
      let rest := preCloseRetryLoop oracle max_workers fuel (round + 1) out.2
      (out.1 ++ rest.1, rest.2.1, ⟨retry_workers max_workers, failed, out.2⟩ :: rest.2.2)

/-- `download_pre_close_parallel` (lines 96-137): the initial round over the
full code list with `max_workers` workers, then up to `max_retries` retry
rounds over the still-failing codes.  Returns the accumulated results, the
final failed list and the trace of executed rounds. -/
def download_pre_close_parallel (oracle : Nat → String → HttpResp)
    (stock_codes : List String) (max_workers max_retries : Nat) :
    List (String × JVal) × List String × List PreRound :=
  let out0 := download_batch_internal (oracle 0) stock_codes
  let rest := preCloseRetryLoop oracle max_workers max_retries 1 out0.2
  (out0.1 ++ rest.1, rest.2.1, ⟨max_workers, stock_codes, out0.2⟩ :: rest.2.2)

/-- Chaining of a `download_pre_close_parallel` round trace: every round's
submitted codes are exactly the failed codes of the round before it. -/
def PreChained : List PreRound → Prop
  | [] => True
  | a :: rest =>
    match rest with
    | [] => True
    | b :: _ => b.inputCodes = a.failedCodes ∧ PreChained rest

/-- Auxiliary chaining predicate: the first round of the trace is submitted
exactly `failed`, and each later round its predecessor's failed codes. -/
def PreChainFrom (failed : List String) : List PreRound → Prop
  | [] => True
  | rr :: rest => rr.inputCodes = failed ∧ PreChainFrom rr.failedCodes rest

end PreClose

namespace Downloader

/-- Under the well-paged shape, the pagination loop consumes the whole mock
sequence and accumulates the concatenation of its pages in request order. -/
theorem fetchPages_wellPaged {α : Type} (B : Nat) (hB : 0 < B)
    (pages : List (List α)) :
    ∀ acc : List α, wellPaged B pages = true →
      fetchPages B (pages.map some) acc = PageLoop.done (acc ++ pages.flatten) := by
  induction pages with
  | nil => intro acc hw; simp [wellPaged] at hw
  | cons p rest ih =>
    intro acc hw
    cases rest with
    | nil =>
      simp only [wellPaged, decide_eq_true_eq] at hw
      by_cases h0 : p.length = 0
      · have hp : p = [] := List.eq_nil_of_length_eq_zero h0
        simp [fetchPages, hp]
      · simp [fetchPages, h0, hw]
    | cons q rest' =>
      simp only [wellPaged, Bool.and_eq_true, beq_iff_eq] at hw
      obtain ⟨hlen, hw'⟩ := hw
      have h0 : ¬p.length = 0 := by omega
      have hnlt : ¬p.length < B := by omega
      have step : fetchPages B ((p :: q :: rest').map some) acc
          = fetchPages B ((q :: rest').map some) (acc ++ p) := by
        conv_lhs => rw [List.map_cons, fetchPages]
        simp [h0, hnlt]
      rw [step, ih (acc ++ p) hw']
      simp [List.append_assoc]

end Downloader

namespace Downloader

/-- C1: for every mock sequence of page lengths in which each page before the
last has exactly `batch_size` records and the last page has fewer (possibly
zero), the attempt accumulates exactly the concatenation of all pages in
request order (so its record count is the sum of the page lengths), and the
result is the `成功下载` success when the total is nonzero and the
`当日无数据` no-data outcome when it is zero. -/
theorem paginated_fetch_sums_pages {α : Type} (code market : String) (B : Nat)
    (pages : List (List α)) (hB : 0 < B) (hw : wellPaged B pages = true) :
    fetch_single_stock code market false [ServerBehavior.session (pages.map some)] 3 B =
      some (if pages.flatten.isEmpty then
              ⟨code, false, noDataMsg market, .noData, none, 1⟩
            else
              ⟨code, true, successMsg pages.flatten.length, .success, some pages.flatten, 1⟩) ∧
    pages.flatten.length = (pages.map List.length).sum := by
  refine ⟨?_, by simp⟩
  have h := fetchPages_wellPaged B hB pages [] hw
  simp only [List.nil_append] at h
  simp only [fetch_single_stock, if_neg Bool.false_ne_true, List.take, tryServers, h]
  by_cases he : pages.flatten.isEmpty <;> simp [he]

/-- C1 witness: the theorem applied to the concrete mock `[[1,2],[3]]` with
`batch_size` 2. -/
theorem paginated_fetch_sums_pages_witness :
    (0 < 2 ∧ wellPaged 2 [[1, 2], [3]] = true) ∧
    (fetch_single_stock "600000" "1" false
        [ServerBehavior.session (([[1, 2], [3]] : List (List Nat)).map some)] 3 2 =
      some (if ([[1, 2], [3]] : List (List Nat)).flatten.isEmpty then
              ⟨"600000", false, noDataMsg "1", .noData, none, 1⟩
            else
              ⟨"600000", true, successMsg ([[1, 2], [3]] : List (List Nat)).flatten.length,
                .success, some ([[1, 2], [3]] : List (List Nat)).flatten, 1⟩) ∧
      ([[1, 2], [3]] : List (List Nat)).flatten.length =
        (([[1, 2], [3]] : List (List Nat)).map List.length).sum) :=
  ⟨⟨by decide, by decide⟩,
   paginated_fetch_sums_pages "600000" "1" 2 [[1, 2], [3]] (by decide) (by decide)⟩

/-- C5: when the per-target output artifact already exists,
`fetch_single_stock` returns success immediately, makes zero network
connections and writes nothing. -/
theorem existing_file_short_circuits {α : Type} (code market : String)
    (servers : List (ServerBehavior α)) (retry_count B : Nat) :
    fetch_single_stock code market true servers retry_count B =
      some ⟨code, true, "文件已存在，跳过", OutcomeKind.success, none, 0⟩ := rfl

end Downloader

namespace Downloader

/-- When every server in the list aborts with the transient sentinel, the
server loop falls through and returns the `尝试均失败` failure, with no write
and one connect per server. -/
theorem tryServers_all_sentinel {α : Type} (code market : String) (B : Nat) :
    ∀ (servers : List (ServerBehavior α)) (le : Option String) (conn : Nat),
      (∀ b ∈ servers, SentinelSession B b) →
      ∃ e, tryServers code market B servers le conn =
        some ⟨code, false, allFailedMsg e, .failed, none, conn + servers.length⟩ := by
  intro servers
  induction servers with
  | nil => intro le conn _; exact ⟨le, by simp [tryServers]⟩
  | cons b rest ih =>
    intro le conn h
    obtain ⟨replies, acc, rfl, hsent⟩ := h b (by simp)
    obtain ⟨e, he⟩ := ih (some sentinelMsg) (conn + 1) fun b hb => h b (by simp [hb])
    refine ⟨e, ?_⟩
    simp only [tryServers, hsent, he, List.length_cons]
    congr 2
    omega

/-- C2: when the transient-failure sentinel (a `None` page, distinct from a
zero-length page) is hit on every server tried — even after accumulating some
pages — the attempt's outcome is the `尝试均失败` failure: never success,
never no-data, and nothing is written. -/
theorem sentinel_attempt_fails {α : Type} (code market : String) (B retry_count : Nat)
    (servers : List (ServerBehavior α))
    (h : ∀ b ∈ servers.take retry_count, SentinelSession B b) :
    ∃ r, fetch_single_stock code market false servers retry_count B = some r ∧
      r.outcome = OutcomeKind.failed ∧ r.ok = false ∧ r.written = none := by
  obtain ⟨e, he⟩ := tryServers_all_sentinel code market B (servers.take retry_count) none 0 h
  exact ⟨_, by simpa [fetch_single_stock] using he, rfl, rfl, rfl⟩

/-- C2 witness: a server that delivers one full page and then the sentinel;
the attempt is the `尝试均失败` failure even though two records were already
accumulated. -/
theorem sentinel_attempt_fails_witness :
    ∃ r, fetch_single_stock (α := Nat) "000001" "0" false
        [ServerBehavior.session [some [1, 2], none]] 3 2 = some r ∧
      r.outcome = OutcomeKind.failed ∧ r.ok = false ∧ r.written = none :=
  sentinel_attempt_fails "000001" "0" 2 3 [ServerBehavior.session [some [1, 2], none]]
    (by
      intro b hb
      simp only [List.take, List.mem_singleton] at hb
      subst hb
      exact ⟨[some [1, 2], none], [1, 2], rfl, by decide⟩)

/-- Every result of the server loop either is a success carrying nonempty
written data, or is a non-success that wrote nothing. -/
theorem tryServers_written {α : Type} (code market : String) (B : Nat) :
    ∀ (servers : List (ServerBehavior α)) (le : Option String) (conn : Nat) (r : FetchRes α),
      tryServers code market B servers le conn = some r →
      (r.outcome = OutcomeKind.success ∧ ∃ d, r.written = some d ∧ d ≠ []) ∨
      (r.outcome ≠ OutcomeKind.success ∧ r.written = none) := by
  intro servers
  induction servers with
  | nil =>
    intro le conn r h
    simp only [tryServers, Option.some.injEq] at h
    subst h
    exact Or.inr ⟨by simp, rfl⟩
  | cons b rest ih =>
    intro le conn r h
    match b with
    | .connectFail ip => exact ih _ _ r h
    | .raises m => exact ih _ _ r h
    | .session replies =>
      simp only [tryServers] at h
      cases hfp : fetchPages B replies [] with
      | sentinel acc => rw [hfp] at h; exact ih _ _ r h
      | ranOut acc => rw [hfp] at h; exact absurd h (by simp)
      | done acc =>
        rw [hfp] at h
        dsimp only at h
        by_cases hacc : acc.isEmpty
        · rw [if_pos hacc] at h
          simp only [Option.some.injEq] at h
          subst h
          exact Or.inr ⟨by simp, rfl⟩
        · rw [if_neg hacc] at h
          simp only [Option.some.injEq] at h
          subst h
          exact Or.inl ⟨rfl, acc, rfl, by simpa using hacc⟩

/-- C10: a `fetch_single_stock` call writes the per-target file exactly when
it returns the download success and the file did not already exist, and any
written data is nonempty; every failed path (connection failure, sentinel on
all servers, exception) and every no-data path writes nothing, partially
accumulated pages included. -/
theorem write_iff_new_success {α : Type} (code market : String) (fe : Bool)
    (servers : List (ServerBehavior α)) (retry_count B : Nat) (r : FetchRes α)
    (h : fetch_single_stock code market fe servers retry_count B = some r) :
    r.written.isSome = (decide (r.outcome = OutcomeKind.success) && !fe) ∧
    optAll (fun d => !d.isEmpty) r.written = true := by
  cases fe with
  | true =>
    simp only [fetch_single_stock, if_pos, Option.some.injEq] at h
    subst h
    exact ⟨rfl, rfl⟩
  | false =>
    simp only [fetch_single_stock, Bool.false_eq_true, if_neg] at h
    rcases tryServers_written code market B _ _ _ _ h with
      ⟨hout, d, hw, hd⟩ | ⟨hout, hw⟩
    · rw [hw, hout]
      refine ⟨rfl, ?_⟩
      simpa [optAll] using hd
    · rw [hw]
      simp only [Option.isSome_none, optAll, and_true]
      rw [decide_eq_false hout]
      rfl

/-- C10 witness: the theorem applied to a successful concrete fetch. -/
theorem write_iff_new_success_witness :
    (fetch_single_stock "600000" "1" false
        [ServerBehavior.session [some [1, 2], some [3]]] 3 2 =
      some (⟨"600000", true, successMsg 3, .success, some [1, 2, 3], 1⟩ : FetchRes Nat)) ∧
    ((some [1, 2, 3] : Option (List Nat)).isSome =
        (decide ((OutcomeKind.success : OutcomeKind) = OutcomeKind.success) && !false) ∧
      optAll (fun d => !d.isEmpty) (some [1, 2, 3] : Option (List Nat)) = true) :=
  ⟨by decide,
   write_iff_new_success "600000" "1" false [ServerBehavior.session [some [1, 2], some [3]]]
     3 2 ⟨"600000", true, successMsg 3, .success, some [1, 2, 3], 1⟩ (by decide)⟩

end Downloader

namespace Downloader

/-- Each round partitions its input: the success count plus the failure-list
length equals the number of submitted targets. -/
theorem download_batch_counts {α : Type} (B rc : Nat) :
    ∀ (stocks : List (StockSpec α)) (round : Nat) (files : List String)
      (sc : Nat) (fl : List (String × String)) (files' : List String),
      download_batch B rc stocks round files = some (sc, fl, files') →
      sc + fl.length = stocks.length := by
  intro stocks
  induction stocks with
  | nil =>
    intro round files sc fl files' h
    simp only [download_batch, Option.some.injEq, Prod.mk.injEq] at h
    obtain ⟨h1, h2, -⟩ := h
    simp [← h1, ← h2]
  | cons s rest ih =>
    intro round files sc fl files' h
    simp only [download_batch] at h
    cases hf : fetch_single_stock s.code s.market (files.contains s.code)
        (s.behavior round) rc B with
    | none => rw [hf] at h; exact absurd h (by simp)
    | some r =>
      rw [hf] at h
      dsimp only at h
      cases hd : download_batch B rc rest round
          (if r.written.isSome = true then s.code :: files else files) with
      | none => rw [hd] at h; exact absurd h (by simp)
      | some out =>
        obtain ⟨sc', fl', files₂⟩ := out
        rw [hd] at h
        simp only [Option.some.injEq, Prod.mk.injEq] at h
        obtain ⟨h1, h2, -⟩ := h
        have := ih round (if r.written.isSome = true then s.code :: files else files)
          sc' fl' files₂ hd
        cases hok : r.ok <;> simp only [hok] at h1 h2 <;> subst h1 <;> subst h2 <;>
          simp <;> omega

/-- The failure list of a round lists (code, reason) pairs for a sublist of
the submitted targets, in submission order. -/
theorem download_batch_failed_sublist {α : Type} (B rc : Nat) :
    ∀ (stocks : List (StockSpec α)) (round : Nat) (files : List String)
      (sc : Nat) (fl : List (String × String)) (files' : List String),
      download_batch B rc stocks round files = some (sc, fl, files') →
      List.Sublist (fl.map Prod.fst) (stocks.map fun s => s.code) := by
  intro stocks
  induction stocks with
  | nil =>
    intro round files sc fl files' h
    simp only [download_batch, Option.some.injEq, Prod.mk.injEq] at h
    obtain ⟨-, h2, -⟩ := h
    simp [← h2]
  | cons s rest ih =>
    intro round files sc fl files' h
    simp only [download_batch] at h
    cases hf : fetch_single_stock s.code s.market (files.contains s.code)
        (s.behavior round) rc B with
    | none => rw [hf] at h; exact absurd h (by simp)
    | some r =>
      rw [hf] at h
      dsimp only at h
      cases hd : download_batch B rc rest round
          (if r.written.isSome = true then s.code :: files else files) with
      | none => rw [hd] at h; exact absurd h (by simp)
      | some out =>
        obtain ⟨sc', fl', files₂⟩ := out
        rw [hd] at h
        simp only [Option.some.injEq, Prod.mk.injEq] at h
        obtain ⟨-, h2, -⟩ := h
        have hsub := ih round (if r.written.isSome = true then s.code :: files else files)
          sc' fl' files₂ hd
        cases hok : r.ok <;> simp only [hok] at h2 <;> subst h2
        · simpa using hsub.cons₂ s.code
        · simpa using hsub.cons s.code

/-- Filtering by membership in a predicate list commutes with projecting the
code. -/
theorem map_code_filter {α : Type} (p : String → Bool) :
    ∀ stocks : List (StockSpec α),
      ((stocks.filter fun s => p s.code).map fun s => s.code) =
        (stocks.map fun s => s.code).filter p := by
  intro stocks
  induction stocks with
  | nil => rfl
  | cons s rest ih =>
    by_cases h : p s.code <;> simp [List.filter_cons, h, ih]

/-- Filtering a duplicate-free list down to the members of one of its
sublists recovers exactly that sublist. -/
theorem filter_contains_of_sublist {α : Type} [BEq α] [LawfulBEq α] :
    ∀ {sub l : List α}, List.Sublist sub l → l.Nodup →
      (l.filter fun x => sub.contains x) = sub := by
  intro sub l hs
  induction hs with
  | slnil => intro _; rfl
  | @cons sub l a hs ih =>
    intro hnd
    obtain ⟨hna, hnd'⟩ := List.nodup_cons.mp hnd
    have hca : ¬sub.contains a = true := fun hc =>
      hna (hs.subset (List.elem_iff.mp hc))
    rw [List.filter_cons, if_neg hca, ih hnd']
  | @cons₂ sub l a hs ih =>
    intro hnd
    obtain ⟨hna, hnd'⟩ := List.nodup_cons.mp hnd
    have hca : (a :: sub).contains a = true :=
      List.elem_iff.mpr (List.mem_cons_self a sub)
    rw [List.filter_cons, if_pos hca]
    have hcongr : (l.filter fun x => (a :: sub).contains x) =
        (l.filter fun x => sub.contains x) := by
      apply List.filter_congr
      intro x hx
      have hxa : (x == a) = false :=
        beq_eq_false_iff_ne.mpr fun hxa => hna (hxa ▸ hx)
      simp [List.contains_cons, hxa]
    rw [hcongr, ih hnd']

end Downloader

namespace Downloader

/-- Re-filtering a duplicate-free universe by the codes of a failure list that
came (as a sublist) from that universe yields exactly the failed codes. -/
theorem retry_filter_codes {α : Type} (stocks : List (StockSpec α))
    (failed : List (String × String))
    (hnd : (stocks.map fun s => s.code).Nodup)
    (hsub : List.Sublist (failed.map Prod.fst) (stocks.map fun s => s.code)) :
    ((stocks.filter fun s => (failed.map Prod.fst).contains s.code).map fun s => s.code) =
      failed.map Prod.fst := by
  rw [map_code_filter]
  exact filter_contains_of_sublist hsub hnd

/-- Invariant of the retry loop: over a duplicate-free universe, the extra
successes plus the final failures exactly account for the entering failure
list, and the final failed codes still form a sublist of the universe. -/
theorem retryLoop_invariant {α : Type} (stocks : List (StockSpec α)) (B rc W : Nat)
    (hnd : (stocks.map fun s => s.code).Nodup) :
    ∀ (fuel round : Nat) (failed : List (String × String)) (files : List String)
      (ex : Nat) (fl : List (String × String)) (tr : List RoundResult)
      (files' : List String),
      List.Sublist (failed.map Prod.fst) (stocks.map fun s => s.code) →
      retryLoop stocks B rc W fuel round failed files = some (ex, fl, tr, files') →
      ex + fl.length = failed.length ∧
        List.Sublist (fl.map Prod.fst) (stocks.map fun s => s.code) := by
  intro fuel
  induction fuel with
  | zero =>
    intro round failed files ex fl tr files' hsub h
    simp only [retryLoop, Option.some.injEq, Prod.mk.injEq] at h
    obtain ⟨h1, h2, -, -⟩ := h
    subst h1; subst h2
    exact ⟨by simp, hsub⟩
  | succ fuel ih =>
    intro round failed files ex fl tr files' hsub h
    simp only [retryLoop] at h
    by_cases hemp : failed.isEmpty
    · rw [if_pos hemp] at h
      simp only [Option.some.injEq, Prod.mk.injEq] at h
      obtain ⟨h1, h2, -, -⟩ := h
      subst h1; subst h2
      exact ⟨by simp, hsub⟩
    · rw [if_neg hemp] at h
      cases hb : download_batch B rc
          (stocks.filter fun s => (failed.map Prod.fst).contains s.code) round files with
      | none => rw [hb] at h; exact absurd h (by simp)
      | some out =>
        obtain ⟨sc, flb, files₂⟩ := out
        rw [hb] at h
        dsimp only at h
        cases hr : retryLoop stocks B rc W fuel (round + 1) flb files₂ with
        | none => rw [hr] at h; exact absurd h (by simp)
        | some out₂ =>
          obtain ⟨ex', fl', tr', files₃⟩ := out₂
          rw [hr] at h
          simp only [Option.some.injEq, Prod.mk.injEq] at h
          obtain ⟨h1, h2, -, -⟩ := h
          subst h1; subst h2
          have hkey := retry_filter_codes stocks failed hnd hsub
          have hcnt := download_batch_counts B rc _ round files sc flb files₂ hb
          have hflb : List.Sublist (flb.map Prod.fst) (stocks.map fun s => s.code) := by
            have h1 := download_batch_failed_sublist B rc _ round files sc flb files₂ hb
            rw [hkey] at h1
            exact h1.trans hsub
          obtain ⟨hlen', hsub'⟩ := ih (round + 1) flb files₂ ex' fl' tr' files₃ hflb hr
          refine ⟨?_, hsub'⟩
          have hflen : (stocks.filter fun s =>
              (failed.map Prod.fst).contains s.code).length = failed.length := by
            have := congrArg List.length hkey
            simpa using this
          omega

/-- C4: for every run over a universe with pairwise-distinct codes, the
cumulative success count plus the final failure-list length equals the
universe size in the report. -/
theorem report_invariant {α : Type} (stocks : List (StockSpec α))
    (B rc W maxRetry : Nat) (files : List String) (rep : Report)
    (trace : List RoundResult)
    (hnd : (stocks.map fun s => s.code).Nodup)
    (h : download_all_stocks stocks B rc W maxRetry files = some (rep, trace)) :
    rep.successCount + rep.failedList.length = rep.total ∧ rep.total = stocks.length := by
  unfold download_all_stocks at h
  cases h0 : download_batch B rc stocks 0 files with
  | none => rw [h0] at h; exact absurd h (by simp)
  | some out =>
    obtain ⟨sc0, fl0, files0⟩ := out
    rw [h0] at h
    dsimp only at h
    have hcnt := download_batch_counts B rc stocks 0 files sc0 fl0 files0 h0
    have hsub := download_batch_failed_sublist B rc stocks 0 files sc0 fl0 files0 h0
    by_cases hskip : skipRetryCond stocks.length fl0
    · rw [if_pos hskip] at h
      simp only [Option.some.injEq, Prod.mk.injEq] at h
      obtain ⟨h1, -⟩ := h
      subst h1
      exact ⟨hcnt, rfl⟩
    · rw [if_neg hskip] at h
      cases hr : retryLoop stocks B rc W maxRetry 1 fl0 files0 with
      | none => rw [hr] at h; exact absurd h (by simp)
      | some out₂ =>
        obtain ⟨ex, finalFailed, tr, files₃⟩ := out₂
        rw [hr] at h
        simp only [Option.some.injEq, Prod.mk.injEq] at h
        obtain ⟨h1, -⟩ := h
        subst h1
        obtain ⟨hlen, -⟩ :=
          retryLoop_invariant stocks B rc W hnd maxRetry 1 fl0 files0 ex
            finalFailed tr files₃ hsub hr
        exact ⟨by simp only [Report.successCount, Report.failedList, Report.total]; omega, rfl⟩

/-- C4 witness: the theorem applied to the Scenario A universe with one retry
round. -/
theorem report_invariant_witness :
    ((scenA.map fun s => s.code).Nodup ∧
      download_all_stocks scenA 2 3 10 1 [] =
        some (⟨3, 1, [("000002", noDataMsg "0"), ("300003", noDataMsg "0")]⟩,
          [⟨10, ["600000", "000002", "300003"], 1,
             [("000002", noDataMsg "0"), ("300003", noDataMsg "0")]⟩,
           ⟨10, ["000002", "300003"], 0,
             [("000002", noDataMsg "0"), ("300003", noDataMsg "0")]⟩])) ∧
    ((⟨3, 1, [("000002", noDataMsg "0"), ("300003", noDataMsg "0")]⟩ : Report).successCount +
        (⟨3, 1, [("000002", noDataMsg "0"), ("300003", noDataMsg "0")]⟩ : Report).failedList.length =
        (⟨3, 1, [("000002", noDataMsg "0"), ("300003", noDataMsg "0")]⟩ : Report).total ∧
      (⟨3, 1, [("000002", noDataMsg "0"), ("300003", noDataMsg "0")]⟩ : Report).total =
        scenA.length) :=
  ⟨⟨by decide, by decide⟩,
   report_invariant scenA 2 3 10 1 []
     ⟨3, 1, [("000002", noDataMsg "0"), ("300003", noDataMsg "0")]⟩
     [⟨10, ["600000", "000002", "300003"], 1,
        [("000002", noDataMsg "0"), ("300003", noDataMsg "0")]⟩,
      ⟨10, ["000002", "300003"], 0,
        [("000002", noDataMsg "0"), ("300003", noDataMsg "0")]⟩]
     (by decide) (by decide)⟩

end Downloader

namespace Downloader

/-- The rounds recorded by the retry loop draw their first input from the
entering failure list and every later input from the previous round's
failure list. -/
theorem retryLoop_chainFrom {α : Type} (stocks : List (StockSpec α)) (B rc W : Nat) :
    ∀ (fuel round : Nat) (failed : List (String × String)) (files : List String)
      (ex : Nat) (fl : List (String × String)) (tr : List RoundResult)
      (files' : List String),
      retryLoop stocks B rc W fuel round failed files = some (ex, fl, tr, files') →
      ChainFrom failed tr := by
  intro fuel
  induction fuel with
  | zero =>
    intro round failed files ex fl tr files' h
    simp only [retryLoop, Option.some.injEq, Prod.mk.injEq] at h
    obtain ⟨-, -, h3, -⟩ := h
    subst h3
    trivial
  | succ fuel ih =>
    intro round failed files ex fl tr files' h
    simp only [retryLoop] at h
    by_cases hemp : failed.isEmpty
    · rw [if_pos hemp] at h
      simp only [Option.some.injEq, Prod.mk.injEq] at h
      obtain ⟨-, -, h3, -⟩ := h
      subst h3
      trivial
    · rw [if_neg hemp] at h
      cases hb : download_batch B rc
          (stocks.filter fun s => (failed.map Prod.fst).contains s.code) round files with
      | none => rw [hb] at h; exact absurd h (by simp)
      | some out =>
        obtain ⟨sc, flb, files₂⟩ := out
        rw [hb] at h
        dsimp only at h
        cases hr : retryLoop stocks B rc W fuel (round + 1) flb files₂ with
        | none => rw [hr] at h; exact absurd h (by simp)
        | some out₂ =>
          obtain ⟨ex', fl', tr', files₃⟩ := out₂
          rw [hr] at h
          simp only [Option.some.injEq, Prod.mk.injEq] at h
          obtain ⟨-, -, h3, -⟩ := h
          subst h3
          refine ⟨?_, ih (round + 1) flb files₂ ex' fl' tr' files₃ hr⟩
          intro c hc
          simp only [List.mem_map] at hc
          obtain ⟨s, hsmem, rfl⟩ := hc
          have hcf := (List.mem_filter.mp hsmem).2
          exact List.elem_iff.mp hcf

/-- A chained tail yields a chained trace when prepended with the round whose
failure list it starts from. -/
theorem chainFrom_traceChained :
    ∀ (tr : List RoundResult) (rr : RoundResult),
      ChainFrom rr.failedList tr → TraceChained (rr :: tr) := by
  intro tr
  induction tr with
  | nil => intro rr _; trivial
  | cons b rest ih =>
    intro rr h
    obtain ⟨h1, h2⟩ := h
    exact ⟨h1, ih b h2⟩

/-- Every round recorded by the retry loop runs with the same worker count
the loop was given. -/
theorem retryLoop_workers {α : Type} (stocks : List (StockSpec α)) (B rc W : Nat) :
    ∀ (fuel round : Nat) (failed : List (String × String)) (files : List String)
      (ex : Nat) (fl : List (String × String)) (tr : List RoundResult)
      (files' : List String),
      retryLoop stocks B rc W fuel round failed files = some (ex, fl, tr, files') →
      ∀ rr ∈ tr, rr.workers = W := by
  intro fuel
  induction fuel with
  | zero =>
    intro round failed files ex fl tr files' h
    simp only [retryLoop, Option.some.injEq, Prod.mk.injEq] at h
    obtain ⟨-, -, h3, -⟩ := h
    subst h3
    simp
  | succ fuel ih =>
    intro round failed files ex fl tr files' h
    simp only [retryLoop] at h
    by_cases hemp : failed.isEmpty
    · rw [if_pos hemp] at h
      simp only [Option.some.injEq, Prod.mk.injEq] at h
      obtain ⟨-, -, h3, -⟩ := h
      subst h3
      simp
    · rw [if_neg hemp] at h
      cases hb : download_batch B rc
          (stocks.filter fun s => (failed.map Prod.fst).contains s.code) round files with
      | none => rw [hb] at h; exact absurd h (by simp)
      | some out =>
        obtain ⟨sc, flb, files₂⟩ := out
        rw [hb] at h
        dsimp only at h
        cases hr : retryLoop stocks B rc W fuel (round + 1) flb files₂ with
        | none => rw [hr] at h; exact absurd h (by simp)
        | some out₂ =>
          obtain ⟨ex', fl', tr', files₃⟩ := out₂
          rw [hr] at h
          simp only [Option.some.injEq, Prod.mk.injEq] at h
          obtain ⟨-, -, h3, -⟩ := h
          subst h3
          intro rr hrr
          rcases List.mem_cons.mp hrr with rfl | hmem
          · rfl
          · exact ih (round + 1) flb files₂ ex' fl' tr' files₃ hr rr hmem

end Downloader

namespace Downloader

/-- Each retry round of `download_pre_close_parallel` is submitted exactly
the failed codes the loop was entered with, and every later round exactly its
predecessor's failed codes. -/
theorem preCloseRetryLoop_chainFrom (oracle : Nat → String → PreClose.HttpResp)
    (W : Nat) :
    ∀ (fuel round : Nat) (failed : List String),
      PreClose.PreChainFrom failed
        (PreClose.preCloseRetryLoop oracle W fuel round failed).2.2 := by
  intro fuel
  induction fuel with
  | zero => intro round failed; trivial
  | succ fuel ih =>
    intro round failed
    by_cases hemp : failed.isEmpty
    · simp only [PreClose.preCloseRetryLoop, if_pos hemp]
      trivial
    · simp only [PreClose.preCloseRetryLoop, if_neg hemp]
      exact ⟨rfl, ih (round + 1) _⟩

/-- A chained tail yields a chained point-lookup trace when prepended with
the round whose failed codes it starts from. -/
theorem preChainFrom_chained :
    ∀ (tr : List PreClose.PreRound) (rr : PreClose.PreRound),
      PreClose.PreChainFrom rr.failedCodes tr → PreClose.PreChained (rr :: tr) := by
  intro tr
  induction tr with
  | nil => intro rr _; trivial
  | cons b rest ih =>
    intro rr h
    obtain ⟨h1, h2⟩ := h
    exact ⟨h1, ih b h2⟩

/-- C6 counterexample: in `download_pre_close_parallel` with configured
concurrency 4, the first retry round runs with `max(5, 4 // 2) = 5 > 4`
workers, so the concurrency of round 1 exceeds that of round 0. -/
theorem retry_concurrency_counterexample :
    PreClose.roundWorkers 4 0 < PreClose.roundWorkers 4 1 := by decide

/-- C6 amended: retry concurrency is non-increasing provided the configured
initial concurrency is at least the floor 5 (in the point-lookup downloader);
in the paginated downloader every executed round runs with the same
configured `max_workers`.  In both engines each round's input codes are drawn
from the previous round's failure list: in the paginated downloader the round
trace is `TraceChained`, and in the point-lookup downloader every retry round
is submitted exactly the previous round's failed codes (`PreChained`). -/
theorem retry_rounds_monotone_and_chained :
    (∀ W r : Nat, 5 ≤ W → PreClose.roundWorkers W (r + 1) ≤ PreClose.roundWorkers W r) ∧
    (∀ (stocks : List (StockSpec Nat)) (B rc W maxR : Nat) (files : List String)
        (rep : Report) (trace : List RoundResult),
        download_all_stocks stocks B rc W maxR files = some (rep, trace) →
        (∀ rr ∈ trace, rr.workers = W) ∧ TraceChained trace) ∧
    (∀ (oracle : Nat → String → PreClose.HttpResp) (codes : List String)
        (W R : Nat),
        PreClose.PreChained
          (PreClose.download_pre_close_parallel oracle codes W R).2.2) := by
  refine ⟨?_, ?_, ?_⟩
  · intro W r h5
    cases r with
    | zero => exact max_le h5 (Nat.div_le_self W 2)
    | succ r => exact le_refl _
  swap
  · intro oracle codes W R
    unfold PreClose.download_pre_close_parallel
    dsimp only
    exact preChainFrom_chained _
      ⟨W, codes, (PreClose.download_batch_internal (oracle 0) codes).2⟩
      (preCloseRetryLoop_chainFrom oracle W R 1 _)
  · intro stocks B rc W maxR files rep trace h
    unfold download_all_stocks at h
    cases h0 : download_batch B rc stocks 0 files with
    | none => rw [h0] at h; exact absurd h (by simp)
    | some out =>
      obtain ⟨sc0, fl0, files0⟩ := out
      rw [h0] at h
      dsimp only at h
      by_cases hskip : skipRetryCond stocks.length fl0
      · rw [if_pos hskip] at h
        simp only [Option.some.injEq, Prod.mk.injEq] at h
        obtain ⟨-, h2⟩ := h
        subst h2
        exact ⟨by simp, trivial⟩
      · rw [if_neg hskip] at h
        cases hr : retryLoop stocks B rc W maxR 1 fl0 files0 with
        | none => rw [hr] at h; exact absurd h (by simp)
        | some out₂ =>
          obtain ⟨ex, ff, tr, files₃⟩ := out₂
          rw [hr] at h
          simp only [Option.some.injEq, Prod.mk.injEq] at h
          obtain ⟨-, h2⟩ := h
          subst h2
          refine ⟨?_, ?_⟩
          · intro rr hrr
            rcases List.mem_cons.mp hrr with rfl | hmem
            · rfl
            · exact retryLoop_workers stocks B rc W maxR 1 fl0 files0 ex ff tr
                files₃ hr rr hmem
          · exact chainFrom_traceChained tr ⟨W, stocks.map fun s => s.code, sc0, fl0⟩
              (retryLoop_chainFrom stocks B rc W maxR 1 fl0 files0 ex ff tr files₃ hr)

/-- C6 witness: all parts of the amended statement at concrete inputs — the
monotone part at `max_workers = 50`, the paginated-trace part on a one-target
universe whose connection always fails (one retry round), and the
point-lookup-trace part on a one-code universe whose request always raises. -/
theorem retry_rounds_monotone_and_chained_witness :
    PreClose.roundWorkers 50 1 ≤ PreClose.roundWorkers 50 0 ∧
    ((∀ rr ∈ [(⟨7, ["000001"],
          0, [("000001", allFailedMsg (some (connectFailMsg "1.2.3.4")))]⟩ : RoundResult),
        ⟨7, ["000001"], 0, [("000001", allFailedMsg (some (connectFailMsg "1.2.3.4")))]⟩],
        rr.workers = 7) ∧
      TraceChained [⟨7, ["000001"],
          0, [("000001", allFailedMsg (some (connectFailMsg "1.2.3.4")))]⟩,
        ⟨7, ["000001"], 0, [("000001", allFailedMsg (some (connectFailMsg "1.2.3.4")))]⟩]) ∧
    PreClose.PreChained
      (PreClose.download_pre_close_parallel
        (fun _ _ => PreClose.HttpResp.raised) ["000001"] 7 1).2.2 :=
  ⟨retry_rounds_monotone_and_chained.1 50 0 (by decide),
   retry_rounds_monotone_and_chained.2.1 envConnFail 2 3 7 1 []
     ⟨1, 0, [("000001", allFailedMsg (some (connectFailMsg "1.2.3.4")))]⟩
     [⟨7, ["000001"], 0, [("000001", allFailedMsg (some (connectFailMsg "1.2.3.4")))]⟩,
      ⟨7, ["000001"], 0, [("000001", allFailedMsg (some (connectFailMsg "1.2.3.4")))]⟩]
     (by decide),
   retry_rounds_monotone_and_chained.2.2
     (fun _ _ => PreClose.HttpResp.raised) ["000001"] 7 1⟩

end Downloader

namespace Downloader

/-- C7 counterexample: with 9 of 10 targets ending round 0 as `当日无数据`
(exactly 90%), the strict `>` in the skip condition is not met, so the run
executes all three retry rounds (four rounds in total) instead of finalizing
the report immediately after round 0. -/
theorem skip_retry_counterexample :
    (download_all_stocks env10 2 3 10 3 []).map (fun p => p.2.length) = some 4 ∧
    ¬(download_all_stocks env10 2 3 10 3 []).map (fun p => p.2.length) = some 1 :=
  ⟨by decide, by decide⟩

/-- C7 amended: retry rounds are skipped and the report is built directly
from the round-0 results exactly when the round-0 failure list is STRICTLY
larger than 90% of the universe and the first recorded failure's reason
contains the `当日无数据` marker (the source condition, evaluated in exact
arithmetic). -/
theorem skip_retry_when_dominated {α : Type} (stocks : List (StockSpec α))
    (B rc W maxR : Nat) (files : List String) (sc0 : Nat)
    (fl0 : List (String × String)) (files0 : List String)
    (h0 : download_batch B rc stocks 0 files = some (sc0, fl0, files0))
    (hskip : skipRetryCond stocks.length fl0 = true) :
    download_all_stocks stocks B rc W maxR files =
      some (⟨stocks.length, sc0, fl0⟩, [⟨W, stocks.map fun s => s.code, sc0, fl0⟩]) := by
  unfold download_all_stocks
  rw [h0]
  dsimp only
  rw [if_pos hskip]

/-- C7 witness: a two-target universe in which both targets report
`当日无数据` in round 0 (100% > 90%), so the report is finalized after a
single round. -/
theorem skip_retry_when_dominated_witness :
    (download_batch 2 3 env2NoData 0 [] =
        some (0, [("000001", noDataMsg "0"), ("000002", noDataMsg "0")], []) ∧
      skipRetryCond env2NoData.length
        [("000001", noDataMsg "0"), ("000002", noDataMsg "0")] = true) ∧
    download_all_stocks env2NoData 2 3 10 3 [] =
      some (⟨env2NoData.length, 0, [("000001", noDataMsg "0"), ("000002", noDataMsg "0")]⟩,
        [⟨10, env2NoData.map fun s => s.code, 0,
           [("000001", noDataMsg "0"), ("000002", noDataMsg "0")]⟩]) :=
  ⟨⟨by decide, by decide⟩,
   skip_retry_when_dominated env2NoData 2 3 10 3 [] 0
     [("000001", noDataMsg "0"), ("000002", noDataMsg "0")] []
     (by decide) (by decide)⟩

/-- C3 counterexample: in Scenario A (X succeeds, Y and Z end with
`当日无数据`), the round-0 failure list contains Y and Z — it is not empty as
the claim states. -/
theorem nodata_failure_list_counterexample :
    (download_batch 2 3 scenA 0 []).map (fun t => t.2.1.map Prod.fst) =
      some ["000002", "300003"] ∧
    (["000002", "300003"] : List String) ≠ [] :=
  ⟨by decide, by decide⟩

/-- C3 amended: a `当日无数据` outcome is returned with success flag `False`,
so it IS recorded in the round's failure list and IS fed into later retry
rounds like any other failure (unless the >90% no-data dominance heuristic
stops retries).  In Scenario A the round-0 result is success count 1 and
failure list `[Y, Z]`, and Y, Z are resubmitted in every retry round. -/
theorem nodata_recorded_and_retried :
    (download_batch 2 3 scenA 0 []).map (fun t => (t.1, t.2.1)) =
      some (1, [("000002", noDataMsg "0"), ("300003", noDataMsg "0")]) ∧
    (download_all_stocks scenA 2 3 10 3 []).map (fun p => p.2.map fun rr => rr.inputCodes) =
      some [["600000", "000002", "300003"], ["000002", "300003"],
            ["000002", "300003"], ["000002", "300003"]] :=
  ⟨by decide, by decide⟩

/-- C8 counterexample: with `max_retry = 3`, a target that fails in rounds
0, 1, 2 and succeeds on its round-3 attempt ends as a success with an empty
final failure list — not in the failure list as the claim states. -/
theorem max_retry_boundary_counterexample :
    (download_all_stocks envD3 2 3 10 3 []).map
      (fun p => (p.1.successCount, p.1.failedList)) = some (1, []) := by
  decide

/-- C8 amended: `max_retry = 3` permits retry rounds 1, 2 and 3 after round
0, so a target failing in rounds 0-2 that succeeds on its round-3 attempt
ends as a success; only a target still failing in round 3 (one that would
first succeed in round 4) appears in the final failure list. -/
theorem max_retry_boundary_rounds :
    (download_all_stocks envD3 2 3 10 3 []).map
      (fun p => (p.1.successCount, p.1.failedList.map Prod.fst)) = some (1, []) ∧
    (download_all_stocks envD4 2 3 10 3 []).map
      (fun p => (p.1.successCount, p.1.failedList.map Prod.fst)) = some (0, ["000001"]) :=
  ⟨by decide, by decide⟩

end Downloader

/-- The point-lookup parser never returns a record whose value is the `'-'`
placeholder: that value is filtered to `None`. -/
theorem parse_pre_close_no_dash (resp : PreClose.HttpResp) (code : String) :
    optAll (fun r => !(r.2 == PreClose.JVal.jstr "-"))
      (PreClose.parse_pre_close resp code) = true := by
  cases resp with
  | raised => rfl
  | resp status body =>
    unfold PreClose.parse_pre_close
    dsimp only
    by_cases hs : status ≠ 200
    · rw [if_pos hs]; rfl
    · rw [if_neg hs]
      cases body with
      | none => rfl
      | some f =>
        cases f with
        | none => rfl
        | some v =>
          dsimp only
          by_cases ht : PreClose.truthy v
          · rw [if_pos ht]
            by_cases hd : v = PreClose.JVal.jstr "-"
            · rw [if_pos hd]; rfl
            · rw [if_neg hd]
              simp [optAll, hd]
          · rw [if_neg ht]; rfl

/-- C9: the point-lookup adapter derives the addressing namespace from the
code's leading digit by the fixed table (codes starting with `6` map to
namespace `1.`, codes starting with `0`, `3`, `8`, `4` and every other code
map to `0.`), issues exactly one request with no internal retry loop, and no
successful result ever carries the `'-'` placeholder. -/
theorem pre_close_single_lookup (oracle : String → PreClose.HttpResp) (code : String) :
    (PreClose.get_stock_pre_close_single oracle code).1 =
      [(if code.startsWith "6" then "1." else "0.") ++ code] ∧
    (PreClose.get_stock_pre_close_single oracle code).1.length = 1 ∧
    optAll (fun r => !(r.2 == PreClose.JVal.jstr "-"))
      (PreClose.get_stock_pre_close_single oracle code).2 = true := by
  refine ⟨?_, ?_, ?_⟩ <;> unfold PreClose.get_stock_pre_close_single
  · dsimp only
    split_ifs <;> rfl
  · dsimp only
    split_ifs <;> rfl
  · dsimp only
    exact parse_pre_close_no_dash _ code
